import Mathlib

/-!
Verification of the MultiDataManager data-handling core against its
natural-language specification.

The definitions below are shallow embeddings of the Python source:
  - `multi_data_manager/utils/custom_encoder.py`  (CustomEncoder)
  - `multi_data_manager/handlers/opensearch_handler.py`  (OpensearchHandler)
  - `multi_data_manager/database/sql_helper.py`  (retry_on_lock_error)
Python floats are modelled as rationals (only exact values, `is_integer`
and `int(...)` matter here), machine-level details do not arise.
-/

namespace MultiDataManager

/-! ## Python value model

`PyVal` models the acyclic Python values the serializer dispatches on:
`None`, `bool`, `int`, `float`, `str`, `datetime` (carrying its
`isoformat()` string), `list`, `dict` (insertion-ordered key/value pairs)
and objects with `__annotations__` (`record`, carrying the ordered
(field, value) pairs). -/

inductive PyVal : Type where
  | none : PyVal
  | bool : Bool → PyVal
  | int : Int → PyVal
  | float : Rat → PyVal
  | str : String → PyVal
  | datetime : String → PyVal
  | list : List PyVal → PyVal
  | dict : List (String × PyVal) → PyVal
  | record : List (String × PyVal) → PyVal
deriving Repr

/-- Python's membership test `v in [None, {}, [], '']` used as the pruning
filter in `convert_list` / `convert_dict` / `convert_annotated`.
Equality against those four literals is `False` for every bool, number,
datetime and attribute-object, so only exactly `None`, the empty string,
the empty list and the empty dict pass. -/
def isEmptyLike : PyVal → Bool
  | PyVal.none => true
  | PyVal.str s => s = ""
  | PyVal.list xs => xs.isEmpty
  | PyVal.dict kvs => kvs.isEmpty
  | _ => false

/-- `CustomEncoder.convert_basic_types`: datetimes become their ISO-8601
string; a float whose value is an integer becomes that integer
(`int(obj) if obj.is_integer() else obj`); everything else passes through. -/
def convert_basic_types : PyVal → PyVal
  | PyVal.datetime s => PyVal.str s
  | PyVal.float q => if q.den = 1 then PyVal.int q.num else PyVal.float q
  | v => v

mutual

/-- `CustomEncoder.convert_to_dict`: dispatch on the runtime kind.
`None` maps to `None`; `int`/`str`/`bool`/`datetime` go through
`convert_basic_types`; lists and dicts recurse; objects with
`__annotations__` recurse over their fields; every other value — floats
included, since `float` is absent from the `isinstance` tuple — is
returned unchanged by the final `return obj`. -/
def convert_to_dict : PyVal → PyVal
  | PyVal.none => PyVal.none
  | PyVal.int n => convert_basic_types (PyVal.int n)
  | PyVal.str s => convert_basic_types (PyVal.str s)
  | PyVal.bool b => convert_basic_types (PyVal.bool b)
  | PyVal.datetime s => convert_basic_types (PyVal.datetime s)
  | PyVal.list xs => PyVal.list (convert_list xs)
  | PyVal.dict kvs => PyVal.dict (convert_dict kvs)
  | PyVal.record fs => PyVal.dict (convert_annotated fs)
  | PyVal.float q => PyVal.float q

/-- `CustomEncoder.convert_list`:
`[self.convert_to_dict(item) for item in obj if item not in [None, {}, [], '']]`
— the filter tests the original `item`, the recursion runs on survivors. -/
def convert_list : List PyVal → List PyVal
  | [] => []
  | x :: xs =>
    if isEmptyLike x then convert_list xs
    else convert_to_dict x :: convert_list xs

/-- `CustomEncoder.convert_dict`:
`{key: self.convert_to_dict(value) for key, value in obj.items() if value not in [None, {}, [], '']}`. -/
def convert_dict : List (String × PyVal) → List (String × PyVal)
  | [] => []
  | (k, v) :: kvs =>
    if isEmptyLike v then convert_dict kvs
    else (k, convert_to_dict v) :: convert_dict kvs

/-- `CustomEncoder.convert_annotated`: same comprehension over the ordered
`__annotations__` fields of an attribute object. -/
def convert_annotated : List (String × PyVal) → List (String × PyVal)
  | [] => []
  | (k, v) :: fs =>
    if isEmptyLike v then convert_annotated fs
    else (k, convert_to_dict v) :: convert_annotated fs

end

example : convert_to_dict (PyVal.dict [("k", PyVal.list [PyVal.none])]) =
    PyVal.dict [("k", PyVal.list [])] := rfl

example : convert_to_dict (PyVal.float 1) = PyVal.float 1 := rfl

example : convert_basic_types (PyVal.float 1) = PyVal.int 1 := rfl

example : convert_to_dict
    (PyVal.dict [("a", PyVal.float 1), ("b", PyVal.none), ("c", PyVal.list [])]) =
    PyVal.dict [("a", PyVal.float 1)] := rfl

example : convert_to_dict (PyVal.list [PyVal.list [PyVal.none]]) =
    PyVal.list [PyVal.list []] := rfl

example : convert_to_dict (PyVal.list [PyVal.list []]) = PyVal.list [] := rfl

/-- A Python comprehension `[f(x) for x in obj if p(x)]` is filter-then-map;
`convert_list` is exactly that shape, with the guard applied to the
original (not yet serialized) element. -/
theorem convert_list_filter_map (xs : List PyVal) :
    convert_list xs = (xs.filter fun x => !isEmptyLike x).map convert_to_dict := by
  induction xs with
  | nil => rfl
  | cons x xs ih =>
    by_cases hx : isEmptyLike x <;>
      simp [convert_list, hx, List.filter_cons, ih]

/-- Same for the dict comprehension: the guard tests the original value,
survivors get serialized. -/
theorem convert_dict_filter_map (kvs : List (String × PyVal)) :
    convert_dict kvs =
      (kvs.filter fun kv => !isEmptyLike kv.2).map
        (fun kv => (kv.1, convert_to_dict kv.2)) := by
  induction kvs with
  | nil => rfl
  | cons kv kvs ih =>
    obtain ⟨k, v⟩ := kv
    by_cases hv : isEmptyLike v <;>
      simp [convert_dict, hv, List.filter_cons, ih]

mutual

/-- A value is `stable` when one pass of `convert_to_dict` leaves it
unchanged: no datetime, no attribute object, and no member anywhere that
the pruning filter would drop. -/
def stable : PyVal → Bool
  | PyVal.datetime _ => false
  | PyVal.record _ => false
  | PyVal.list xs => stableList xs
  | PyVal.dict kvs => stableDict kvs
  | _ => true

def stableList : List PyVal → Bool
  | [] => true
  | x :: xs => !isEmptyLike x && stable x && stableList xs

def stableDict : List (String × PyVal) → Bool
  | [] => true
  | kv :: kvs => !isEmptyLike kv.2 && stable kv.2 && stableDict kvs

end

mutual

theorem stable_fix : ∀ v : PyVal, stable v = true → convert_to_dict v = v
  | PyVal.none, _ => rfl
  | PyVal.bool _, _ => rfl
  | PyVal.int _, _ => rfl
  | PyVal.float _, _ => rfl
  | PyVal.str _, _ => rfl
  | PyVal.datetime _, h => by simp [stable] at h
  | PyVal.record _, h => by simp [stable] at h
  | PyVal.list xs, h => by
      have hx : stableList xs = true := by simpa [stable] using h
      simp only [convert_to_dict]
      rw [stableList_fix xs hx]
  | PyVal.dict kvs, h => by
      have hk : stableDict kvs = true := by simpa [stable] using h
      simp only [convert_to_dict]
      rw [stableDict_fix kvs hk]

theorem stableList_fix : ∀ xs : List PyVal, stableList xs = true → convert_list xs = xs
  | [], _ => rfl
  | x :: xs, h => by
      have h' : isEmptyLike x = false ∧ stable x = true ∧ stableList xs = true := by
        simpa [stableList, Bool.and_eq_true, and_assoc] using h
      simp only [convert_list, h'.1, Bool.false_eq_true, if_false]
      rw [stable_fix x h'.2.1, stableList_fix xs h'.2.2]

theorem stableDict_fix : ∀ kvs : List (String × PyVal), stableDict kvs = true →
    convert_dict kvs = kvs
  | [], _ => rfl
  | (k, v) :: kvs, h => by
      have h' : isEmptyLike v = false ∧ stable v = true ∧ stableDict kvs = true := by
        simpa [stableDict, Bool.and_eq_true, and_assoc] using h
      simp only [convert_dict, h'.1, Bool.false_eq_true, if_false]
      rw [stable_fix v h'.2.1, stableDict_fix kvs h'.2.2]

end

/-- C2 (counterexample): the claim states that pruning is decided on the
already-serialized member value, so the key `"k"` of `{"k": [None]}` —
whose serialized value is the empty array — would be dropped, yielding
`{}`. `convert_to_dict` instead filters on the original value `[None]`,
which is not one of `None`/`''`/`[]`/`{}`, so the key is kept and maps to
the empty array. -/
theorem claim_C2_counterexample :
    convert_to_dict (PyVal.dict [("k", PyVal.list [PyVal.none])]) =
      PyVal.dict [("k", PyVal.list [])] ∧
    convert_to_dict (PyVal.dict [("k", PyVal.list [PyVal.none])]) ≠
      PyVal.dict [] :=
  ⟨rfl, by simp [convert_to_dict, convert_dict, convert_list, isEmptyLike]⟩

/-- C2 (amended): for every mapping and every ordered sequence, the
serializer drops a member exactly when its original, pre-serialization
value is null, the empty string, an empty array or an empty mapping, and
then recursively serializes the surviving members; a key whose original
value is `[None]` is therefore kept and maps to the empty array. -/
theorem claim_C2_pruning_preorder (kvs : List (String × PyVal)) (xs : List PyVal) :
    convert_dict kvs =
      (kvs.filter fun kv => !isEmptyLike kv.2).map
        (fun kv => (kv.1, convert_to_dict kv.2)) ∧
    convert_list xs = (xs.filter fun x => !isEmptyLike x).map convert_to_dict ∧
    convert_to_dict (PyVal.dict [("k", PyVal.list [PyVal.none])]) =
      PyVal.dict [("k", PyVal.list [])] :=
  ⟨convert_dict_filter_map kvs, convert_list_filter_map xs, rfl⟩

/-- C3: the claim says integral floats are re-typed to integers on output.
`convert_to_dict` dispatches `int`/`str`/`bool`/`datetime` to
`convert_basic_types` but its `isinstance` tuple omits `float`, so every
float — integral or not — falls through to the final `return obj`
unchanged; the float branch of `convert_basic_types` (which would perform
the claimed normalization, witnessing the intent) is unreachable from
`convert_to_dict`. In particular the spec's example
`serialize({"a": 1.0, "b": None, "c": []})` yields `{"a": 1.0}` with a
float, not `{"a": 1}` with an integer. -/
theorem claim_C3_float_passthrough :
    (∀ q : Rat, convert_to_dict (PyVal.float q) = PyVal.float q) ∧
    convert_basic_types (PyVal.float 1) = PyVal.int 1 ∧
    convert_to_dict
        (PyVal.dict [("a", PyVal.float 1), ("b", PyVal.none), ("c", PyVal.list [])]) =
      PyVal.dict [("a", PyVal.float 1)] ∧
    convert_to_dict
        (PyVal.dict [("a", PyVal.float 1), ("b", PyVal.none), ("c", PyVal.list [])]) ≠
      PyVal.dict [("a", PyVal.int 1)] :=
  ⟨fun _ => rfl, rfl, rfl, by
    simp [convert_to_dict, convert_dict, convert_list, isEmptyLike]⟩

/-- C4 (counterexample): serialization is not idempotent. Pruning uses the
pre-serialization member values, so `serialize([[None]]) = [[]]` while a
second application prunes the now-empty inner array: `serialize([[]]) = []`. -/
theorem claim_C4_counterexample :
    convert_to_dict (convert_to_dict (PyVal.list [PyVal.list [PyVal.none]])) ≠
      convert_to_dict (PyVal.list [PyVal.list [PyVal.none]]) := by
  simp [convert_to_dict, convert_list, isEmptyLike]

/-- C4 (amended): `serialize` is a pure function (hence deterministic), but
re-applying it to its output is a no-op only when that output is stable:
it contains no datetime, no attribute object and no member at any level
that the pruning filter matches. A first pass can create newly-empty
members (see the counterexample), which a second pass then prunes. -/
theorem claim_C4_idempotent_on_stable (v : PyVal)
    (h : stable (convert_to_dict v) = true) :
    convert_to_dict (convert_to_dict v) = convert_to_dict v :=
  stable_fix (convert_to_dict v) h

theorem claim_C4_witness :
    stable (convert_to_dict (PyVal.dict [("a", PyVal.int 1), ("b", PyVal.none)])) = true ∧
    convert_to_dict (convert_to_dict (PyVal.dict [("a", PyVal.int 1), ("b", PyVal.none)])) =
      convert_to_dict (PyVal.dict [("a", PyVal.int 1), ("b", PyVal.none)]) :=
  ⟨rfl, claim_C4_idempotent_on_stable _ rfl⟩

/-! ## OpensearchHandler.batch_upload

`batch_upload(documents, index, recreate_index, max_size_mb)` iterates the
(id, doc) pairs of `documents` in order, rejecting a document whose
serialized byte size exceeds `max_size_mb * 1024 * 1024`, appending a
fitting document to the running batch, and otherwise flushing the running
batch through `helpers.bulk` and starting a new batch with the current
document; a non-empty final batch is flushed after the loop.

The embedding is parametric in the document type `α` and in an
environment supplying `len(json.dumps(doc).encode('utf-8'))` (`dsize`)
and the result of `helpers.bulk` on a batch (`bulkRes`, returning the
success count and the list of per-item failure infos). OpenSearch
operations the call issues are recorded in order as `EsOp` values. -/

/-- Environment of `batch_upload`: the byte size `json.dumps` assigns to a
document, and the `(success, failed-items)` pair `helpers.bulk` returns
for a batch. -/
structure UploadEnv (α : Type) where
  dsize : α → Nat
  bulkRes : List (String × α) → Nat × List String

/-- An OpenSearch operation issued by `batch_upload`: an index
(re)creation, or one `helpers.bulk` call on a batch of (id, source)
actions targeting `index`. -/
inductive EsOp (α : Type) where
  | createIndex (name : String) (shards : Nat) (replicas : Nat)
  | bulkWrite (index : String) (items : List (String × α))

/-- The loop state of `batch_upload`: operations issued so far, the
running `batch` and its `batch_size`, the two counters, and the ids
logged by `logger.error(f"Document {doc_id} exceeds max size limit.")`. -/
structure LoopState (α : Type) where
  ops : List (EsOp α)
  batch : List (String × α)
  batch_size : Nat
  total_success : Nat
  total_failed : Nat
  oversizedLog : List String

/-- One iteration of the `for doc_id, doc in documents.items()` loop. -/
def uploadStep (env : UploadEnv α) (index : String) (max_size_bytes : Nat)
    (st : LoopState α) (d : String × α) : LoopState α :=
  let doc_size := env.dsize d.2
  if doc_size > max_size_bytes then
    { st with total_failed := st.total_failed + 1,
              oversizedLog := st.oversizedLog ++ [d.1] }
  else if st.batch_size + doc_size ≤ max_size_bytes then
    { st with batch := st.batch ++ [d], batch_size := st.batch_size + doc_size }
  else
    let r := env.bulkRes st.batch
    { st with ops := st.ops ++ [EsOp.bulkWrite index st.batch],
              total_success := st.total_success + r.1,
              total_failed := st.total_failed + r.2.length,
              batch := [d],
              batch_size := doc_size }

/-- The spec's `UploadOutcome`: aggregate counters plus per-item failure
reasons, the value the spec says one logical upload call returns. -/
structure UploadOutcome where
  succeeded : Nat
  failed : Nat
  reasons : List String
deriving DecidableEq, Repr

/-- What one `batch_upload` call leaves behind: the OpenSearch operations
issued, the final counter values, the oversized-document log lines, and
the value returned to the caller (`ret`). -/
structure UploadTrace (α : Type) where
  ops : List (EsOp α)
  total_success : Nat
  total_failed : Nat
  oversizedLog : List String
  ret : Option UploadOutcome

/-- The `if batch:` block after the loop: flush the final non-empty batch.
The function body has no `return` statement, so the caller receives
`None` (`ret := none`). -/
def finishUpload (env : UploadEnv α) (index : String) (st : LoopState α) : UploadTrace α :=
  if st.batch.isEmpty then
    ⟨st.ops, st.total_success, st.total_failed, st.oversizedLog, none⟩
  else
    let r := env.bulkRes st.batch
    ⟨st.ops ++ [EsOp.bulkWrite index st.batch], st.total_success + r.1,
      st.total_failed + r.2.length, st.oversizedLog, none⟩

/-- `batch_upload` with the byte cap already computed (the function's
first line sets `max_size_bytes = max_size_mb * 1024 * 1024`). -/
def batch_upload_bytes (env : UploadEnv α) (documents : List (String × α))
    (index : String) (recreate_index : Bool) (max_size_bytes : Nat) : UploadTrace α :=
  let ops0 : List (EsOp α) :=
    if recreate_index then [EsOp.createIndex index 1 1] else []
  let st0 : LoopState α := ⟨ops0, [], 0, 0, 0, []⟩
  finishUpload env index (documents.foldl (uploadStep env index max_size_bytes) st0)

/-- `OpensearchHandler.batch_upload` (dict iteration order = insertion
order, so `documents` is an ordered association list). -/
def batch_upload (env : UploadEnv α) (documents : List (String × α))
    (index : String) (recreate_index : Bool) (max_size_mb : Nat) : UploadTrace α :=
  batch_upload_bytes env documents index recreate_index (max_size_mb * 1024 * 1024)

/-- The batches flushed through `helpers.bulk`, in order. -/
def emittedBatches : List (EsOp α) → List (List (String × α))
  | [] => []
  | EsOp.bulkWrite _ b :: ops => b :: emittedBatches ops
  | EsOp.createIndex _ _ _ :: ops => emittedBatches ops

/-- Byte total of a batch: the sum of its documents' serialized sizes. -/
def batchBytes (dsize : α → Nat) (b : List (String × α)) : Nat :=
  (b.map fun d => dsize d.2).sum

/-- Total success count `helpers.bulk` reports over a list of batches. -/
def sumSuccess (env : UploadEnv α) (bs : List (List (String × α))) : Nat :=
  (bs.map fun b => (env.bulkRes b).1).sum

/-- Total `len(failed)` that `helpers.bulk` reports over a list of batches. -/
def sumBulkFailed (env : UploadEnv α) (bs : List (List (String × α))) : Nat :=
  (bs.map fun b => (env.bulkRes b).2.length).sum

theorem emittedBatches_append (l1 l2 : List (EsOp α)) :
    emittedBatches (l1 ++ l2) = emittedBatches l1 ++ emittedBatches l2 := by
  induction l1 with
  | nil => rfl
  | cons op l ih => cases op <;> simp [emittedBatches, ih]

theorem batchBytes_append (dsize : α → Nat) (b1 b2 : List (String × α)) :
    batchBytes dsize (b1 ++ b2) = batchBytes dsize b1 + batchBytes dsize b2 := by
  simp [batchBytes]

theorem batchBytes_flatten (dsize : α → Nat) (bs : List (List (String × α))) :
    batchBytes dsize bs.flatten = (bs.map (batchBytes dsize)).sum := by
  induction bs with
  | nil => rfl
  | cons b bs ih => simp [List.flatten, batchBytes_append, ih]

theorem sumSuccess_append (env : UploadEnv α) (bs1 bs2 : List (List (String × α))) :
    sumSuccess env (bs1 ++ bs2) = sumSuccess env bs1 + sumSuccess env bs2 := by
  simp [sumSuccess]

theorem sumBulkFailed_append (env : UploadEnv α) (bs1 bs2 : List (List (String × α))) :
    sumBulkFailed env (bs1 ++ bs2) = sumBulkFailed env bs1 + sumBulkFailed env bs2 := by
  simp [sumBulkFailed]

/-- The invariant the batching loop maintains after consuming `processed`:
the running total caches the running batch's byte size and respects the
cap, each flushed batch respects the cap, the flushed batches plus the
running batch hold exactly the non-oversized documents in order, the
oversized log holds exactly the oversized ids in order, and the two
counters aggregate the `helpers.bulk` results (plus one failure per
oversized document). -/
def LoopInv (env : UploadEnv α) (cap : Nat) (processed : List (String × α))
    (st : LoopState α) : Prop :=
  st.batch_size = batchBytes env.dsize st.batch ∧
  batchBytes env.dsize st.batch ≤ cap ∧
  (∀ b ∈ emittedBatches st.ops, batchBytes env.dsize b ≤ cap) ∧
  (emittedBatches st.ops).flatten ++ st.batch =
    processed.filter (fun d => env.dsize d.2 ≤ cap) ∧
  st.oversizedLog = (processed.filter fun d => cap < env.dsize d.2).map Prod.fst ∧
  st.total_success = sumSuccess env (emittedBatches st.ops) ∧
  st.total_failed = st.oversizedLog.length + sumBulkFailed env (emittedBatches st.ops)

theorem uploadStep_inv (env : UploadEnv α) (index : String) (cap : Nat)
    (processed : List (String × α)) (st : LoopState α) (d : String × α)
    (h : LoopInv env cap processed st) :
    LoopInv env cap (processed ++ [d]) (uploadStep env index cap st d) := by
  obtain ⟨h1, h2, h3, h4, h5, h6, h7⟩ := h
  have hle : batchBytes env.dsize [d] = env.dsize d.2 := by simp [batchBytes]
  by_cases hs : env.dsize d.2 > cap
  · have hstep : uploadStep env index cap st d =
        { st with total_failed := st.total_failed + 1,
                  oversizedLog := st.oversizedLog ++ [d.1] } := by
      simp [uploadStep, hs]
    rw [hstep]
    refine ⟨h1, h2, h3, ?_, ?_, h6, ?_⟩
    · rw [List.filter_append]
      have hf : List.filter (fun e => decide (env.dsize e.2 ≤ cap)) [d] = [] := by
        simp [List.filter, Nat.not_le.mpr hs]
      rw [hf, List.append_nil]
      exact h4
    · rw [List.filter_append]
      have hf : List.filter (fun e => decide (cap < env.dsize e.2)) [d] = [d] := by
        simp [List.filter, hs]
      rw [hf, List.map_append, ← h5]
      rfl
    · simp only [List.length_append, List.length_singleton, h7]
      omega
  · have hsle : env.dsize d.2 ≤ cap := Nat.not_lt.mp hs
    have hfone : List.filter (fun e => decide (env.dsize e.2 ≤ cap)) [d] = [d] := by
      simp [List.filter, hsle]
    have hfnone : List.filter (fun e => decide (cap < env.dsize e.2)) [d] = [] := by
      simp [List.filter, Nat.not_lt.mpr hsle]
    by_cases hfit : st.batch_size + env.dsize d.2 ≤ cap
    · have hstep : uploadStep env index cap st d =
          { st with batch := st.batch ++ [d],
                    batch_size := st.batch_size + env.dsize d.2 } := by
        simp [uploadStep, hs, hfit]
      rw [hstep]
      refine ⟨?_, ?_, h3, ?_, ?_, h6, ?_⟩
      · rw [batchBytes_append, hle, h1]
      · rw [batchBytes_append, hle, ← h1]
        exact hfit
      · rw [List.filter_append, hfone, ← List.append_assoc]
        exact congrArg (· ++ [d]) h4
      · rw [List.filter_append, hfnone, List.append_nil]
        exact h5
      · exact h7
    · have hstep : uploadStep env index cap st d =
          { st with ops := st.ops ++ [EsOp.bulkWrite index st.batch],
                    total_success := st.total_success + (env.bulkRes st.batch).1,
                    total_failed := st.total_failed + (env.bulkRes st.batch).2.length,
                    batch := [d],
                    batch_size := env.dsize d.2 } := by
        simp [uploadStep, hs, hfit]
      rw [hstep]
      have hemit : emittedBatches (st.ops ++ [EsOp.bulkWrite index st.batch]) =
          emittedBatches st.ops ++ [st.batch] := by
        rw [emittedBatches_append]; rfl
      refine ⟨hle.symm, ?_, ?_, ?_, ?_, ?_, ?_⟩
      · rw [hle]; exact hsle
      · intro b hb
        rw [hemit] at hb
        rcases List.mem_append.mp hb with hm | hm
        · exact h3 b hm
        · rw [List.mem_singleton.mp hm]
          exact h2
      · rw [hemit, List.flatten_append, List.filter_append, hfone]
        simp only [List.flatten, List.append_nil, List.append_assoc]
        rw [← h4]
        simp [List.append_assoc]
      · rw [List.filter_append, hfnone, List.append_nil]
        exact h5
      · rw [hemit, sumSuccess_append, ← h6]
        simp [sumSuccess]
      · show st.total_failed + (env.bulkRes st.batch).2.length =
          st.oversizedLog.length +
            sumBulkFailed env (emittedBatches (st.ops ++ [EsOp.bulkWrite index st.batch]))
        rw [hemit, sumBulkFailed_append]
        have hone : sumBulkFailed env [st.batch] = (env.bulkRes st.batch).2.length := by
          simp [sumBulkFailed]
        rw [hone]
        omega

theorem uploadLoop_inv (env : UploadEnv α) (index : String) (cap : Nat) :
    ∀ (docs processed : List (String × α)) (st : LoopState α),
      LoopInv env cap processed st →
      LoopInv env cap (processed ++ docs) (docs.foldl (uploadStep env index cap) st)
  | [], processed, st, h => by simpa using h
  | d :: docs, processed, st, h => by
      have h2 := uploadLoop_inv env index cap docs (processed ++ [d]) _
        (uploadStep_inv env index cap processed st d h)
      simpa [List.append_assoc] using h2

theorem LoopInv_init (env : UploadEnv α) (cap : Nat) (index : String) (recreate : Bool) :
    LoopInv env cap []
      ⟨if recreate then [EsOp.createIndex index 1 1] else [], [], 0, 0, 0, []⟩ := by
  cases recreate <;>
    simp [LoopInv, emittedBatches, batchBytes, sumSuccess, sumBulkFailed]

/-- The final-flush step turns a state satisfying the loop invariant into
a trace with the claimed global properties. -/
theorem finishUpload_spec (env : UploadEnv α) (index : String) (cap : Nat)
    (docs : List (String × α)) (st : LoopState α) (h : LoopInv env cap docs st) :
    (∀ b ∈ emittedBatches (finishUpload env index st).ops,
        batchBytes env.dsize b ≤ cap) ∧
    (emittedBatches (finishUpload env index st).ops).flatten =
      docs.filter (fun d => env.dsize d.2 ≤ cap) ∧
    (finishUpload env index st).oversizedLog =
      (docs.filter fun d => cap < env.dsize d.2).map Prod.fst ∧
    (finishUpload env index st).total_success =
      sumSuccess env (emittedBatches (finishUpload env index st).ops) ∧
    (finishUpload env index st).total_failed =
      (finishUpload env index st).oversizedLog.length +
        sumBulkFailed env (emittedBatches (finishUpload env index st).ops) ∧
    (finishUpload env index st).ret = none := by
  obtain ⟨h1, h2, h3, h4, h5, h6, h7⟩ := h
  by_cases hb : st.batch.isEmpty
  · have hbe : st.batch = [] := List.isEmpty_iff.mp hb
    have htr : finishUpload env index st =
        ⟨st.ops, st.total_success, st.total_failed, st.oversizedLog, none⟩ := by
      unfold finishUpload
      rw [if_pos hb]
    rw [htr]
    refine ⟨h3, ?_, h5, h6, h7, rfl⟩
    show (emittedBatches st.ops).flatten = _
    rw [← h4, hbe, List.append_nil]
  · have htr : finishUpload env index st =
        ⟨st.ops ++ [EsOp.bulkWrite index st.batch],
          st.total_success + (env.bulkRes st.batch).1,
          st.total_failed + (env.bulkRes st.batch).2.length,
          st.oversizedLog, none⟩ := by
      unfold finishUpload
      rw [if_neg hb]
    rw [htr]
    have hemit : emittedBatches (st.ops ++ [EsOp.bulkWrite index st.batch]) =
        emittedBatches st.ops ++ [st.batch] := by
      rw [emittedBatches_append]; rfl
    refine ⟨?_, ?_, h5, ?_, ?_, rfl⟩
    · intro b hbm
      show batchBytes env.dsize b ≤ cap
      have hbm2 : b ∈ emittedBatches st.ops ++ [st.batch] := hemit ▸ hbm
      rcases List.mem_append.mp hbm2 with hm | hm
      · exact h3 b hm
      · rw [List.mem_singleton.mp hm]
        exact h2
    · show (emittedBatches (st.ops ++ [EsOp.bulkWrite index st.batch])).flatten = _
      rw [hemit, List.flatten_append]
      simpa using h4
    · show st.total_success + (env.bulkRes st.batch).1 =
        sumSuccess env (emittedBatches (st.ops ++ [EsOp.bulkWrite index st.batch]))
      rw [hemit, sumSuccess_append, h6]
      simp [sumSuccess]
    · show st.total_failed + (env.bulkRes st.batch).2.length =
        st.oversizedLog.length +
          sumBulkFailed env (emittedBatches (st.ops ++ [EsOp.bulkWrite index st.batch]))
      rw [hemit, sumBulkFailed_append]
      have hone : sumBulkFailed env [st.batch] = (env.bulkRes st.batch).2.length := by
        simp [sumBulkFailed]
      rw [hone]
      omega

/-- Everything the `batch_upload` trace satisfies, for an arbitrary byte
cap: the bridge from the loop invariant to the per-claim theorems. -/
theorem batch_upload_bytes_spec (env : UploadEnv α) (docs : List (String × α))
    (index : String) (recreate : Bool) (cap : Nat) :
    (∀ b ∈ emittedBatches (batch_upload_bytes env docs index recreate cap).ops,
        batchBytes env.dsize b ≤ cap) ∧
    (emittedBatches (batch_upload_bytes env docs index recreate cap).ops).flatten =
      docs.filter (fun d => env.dsize d.2 ≤ cap) ∧
    (batch_upload_bytes env docs index recreate cap).oversizedLog =
      (docs.filter fun d => cap < env.dsize d.2).map Prod.fst ∧
    (batch_upload_bytes env docs index recreate cap).total_success =
      sumSuccess env (emittedBatches (batch_upload_bytes env docs index recreate cap).ops) ∧
    (batch_upload_bytes env docs index recreate cap).total_failed =
      (batch_upload_bytes env docs index recreate cap).oversizedLog.length +
        sumBulkFailed env (emittedBatches (batch_upload_bytes env docs index recreate cap).ops) ∧
    (batch_upload_bytes env docs index recreate cap).ret = none := by
  have H := uploadLoop_inv env index cap docs []
    ⟨if recreate then [EsOp.createIndex index 1 1] else [], [], 0, 0, 0, []⟩
    (LoopInv_init env cap index recreate)
  simp only [List.nil_append] at H
  exact finishUpload_spec env index cap docs _ H

/-- A concrete environment for sanity checks and witnesses: a document is
its own byte size, and `helpers.bulk` reports every item of a batch as
succeeded. -/
def envW : UploadEnv Nat :=
  ⟨fun d => d, fun b => (b.length, [])⟩

example :
    emittedBatches
      (batch_upload_bytes envW [("d1", 30), ("d2", 40), ("d3", 50)] "i" false 100).ops =
    [[("d1", 30), ("d2", 40)], [("d3", 50)]] := rfl

example :
    (batch_upload_bytes envW [("d1", 30), ("d2", 200), ("d3", 50)] "i" false 100).oversizedLog
      = ["d2"] := rfl

example :
    (batch_upload envW [("d1", 1)] "i" true 10).ops =
      [EsOp.createIndex "i" 1 1, EsOp.bulkWrite "i" [("d1", 1)]] := rfl

/-- C1: for every document sequence and byte cap, the batch-assembly loop
of `batch_upload` emits only batches whose byte total is at most the cap;
the flushed batches concatenate, in order, to exactly the documents whose
individual size fits the cap (so each non-rejected document lands in
exactly one batch, order preserved, and an oversized one in none); the
oversized log names exactly the oversized documents in order; and the
sizes of the non-rejected documents sum to the batches' byte totals.
`batch_upload` runs this loop with cap `max_size_mb * 1024 * 1024`. -/
theorem claim_C1_batch_assembly (env : UploadEnv α) (docs : List (String × α))
    (index : String) (recreate : Bool) (cap : Nat) (max_size_mb : Nat) :
    (∀ b ∈ emittedBatches (batch_upload_bytes env docs index recreate cap).ops,
        batchBytes env.dsize b ≤ cap) ∧
    (emittedBatches (batch_upload_bytes env docs index recreate cap).ops).flatten =
      docs.filter (fun d => env.dsize d.2 ≤ cap) ∧
    (batch_upload_bytes env docs index recreate cap).oversizedLog =
      (docs.filter fun d => cap < env.dsize d.2).map Prod.fst ∧
    ((emittedBatches (batch_upload_bytes env docs index recreate cap).ops).map
        (batchBytes env.dsize)).sum =
      ((docs.filter fun d => env.dsize d.2 ≤ cap).map fun d => env.dsize d.2).sum ∧
    batch_upload env docs index recreate max_size_mb =
      batch_upload_bytes env docs index recreate (max_size_mb * 1024 * 1024) := by
  obtain ⟨h1, h2, h3, _, _, _⟩ := batch_upload_bytes_spec env docs index recreate cap
  refine ⟨h1, h2, h3, ?_, rfl⟩
  rw [← batchBytes_flatten, h2]
  rfl

theorem claim_C1_witness :
    (∀ b ∈ emittedBatches
        (batch_upload_bytes envW [("d1", 30), ("d2", 40), ("d3", 50)] "i" false 100).ops,
        batchBytes envW.dsize b ≤ 100) ∧
    (emittedBatches
        (batch_upload_bytes envW [("d1", 30), ("d2", 40), ("d3", 50)] "i" false 100).ops).flatten =
      [("d1", 30), ("d2", 40), ("d3", 50)].filter (fun d => envW.dsize d.2 ≤ 100) ∧
    (batch_upload_bytes envW [("d1", 30), ("d2", 40), ("d3", 50)] "i" false 100).oversizedLog =
      ([("d1", 30), ("d2", 40), ("d3", 50)].filter fun d => 100 < envW.dsize d.2).map Prod.fst ∧
    ((emittedBatches
        (batch_upload_bytes envW [("d1", 30), ("d2", 40), ("d3", 50)] "i" false 100).ops).map
        (batchBytes envW.dsize)).sum =
      (([("d1", 30), ("d2", 40), ("d3", 50)].filter fun d => envW.dsize d.2 ≤ 100).map
        fun d => envW.dsize d.2).sum ∧
    batch_upload envW [("d1", 30), ("d2", 40), ("d3", 50)] "i" false 10 =
      batch_upload_bytes envW [("d1", 30), ("d2", 40), ("d3", 50)] "i" false (10 * 1024 * 1024) :=
  claim_C1_batch_assembly envW [("d1", 30), ("d2", 40), ("d3", 50)] "i" false 100 10

/-- C7 (counterexample): the claim says `batch_upload` returns an
`UploadOutcome` to its caller; the function body has no `return`
statement, so a concrete call returns `None`. -/
theorem claim_C7_counterexample :
    (batch_upload envW [("a", 1)] "idx" false 10).ret = none := rfl

/-- C7 (amended): `batch_upload` does accumulate the aggregate succeeded
and failed counters across all batches of the call (counting each
oversized document as one failure), but it only logs them: the call
returns `None` to its caller, and the per-item failure lists returned by
`helpers.bulk` are reduced to their lengths, not collected. -/
theorem claim_C7_counters_logged_not_returned (env : UploadEnv α)
    (docs : List (String × α)) (index : String) (recreate : Bool) (max_size_mb : Nat) :
    (batch_upload env docs index recreate max_size_mb).ret = none ∧
    (batch_upload env docs index recreate max_size_mb).total_success =
      sumSuccess env (emittedBatches (batch_upload env docs index recreate max_size_mb).ops) ∧
    (batch_upload env docs index recreate max_size_mb).total_failed =
      (batch_upload env docs index recreate max_size_mb).oversizedLog.length +
        sumBulkFailed env
          (emittedBatches (batch_upload env docs index recreate max_size_mb).ops) := by
  obtain ⟨_, _, _, h4, h5, h6⟩ :=
    batch_upload_bytes_spec env docs index recreate (max_size_mb * 1024 * 1024)
  exact ⟨h6, h4, h5⟩

/-! ## OpensearchHandler.create_index

`create_index(index_name, number_of_shards, number_of_replicas)` first
deletes the index if `self.es.indices.exists(index=index_name)`, then
creates it with the requested shard/replica settings. The cluster is
modelled as an association list from index name to its settings and
stored documents; `indices.delete` drops the whole index, documents
included, and `indices.create` installs a fresh empty one. -/

/-- One OpenSearch index: its settings and the documents it stores. -/
structure EsIndexState (α : Type) where
  shards : Nat
  replicas : Nat
  docs : List (String × α)
deriving Repr

/-- The cluster's indices, keyed by name. -/
abbrev EsState (α : Type) := List (String × EsIndexState α)

/-- `self.es.indices.exists` / index lookup. -/
def esLookup (st : EsState α) (name : String) : Option (EsIndexState α) :=
  (st.find? fun e => e.1 == name).map Prod.snd

/-- `OpensearchHandler.create_index`: delete the index when it exists,
then create it fresh with the requested settings (defaults 1/1). -/
def create_index (st : EsState α) (index_name : String)
    (number_of_shards number_of_replicas : Nat) : EsState α :=
  let st1 :=
    if (esLookup st index_name).isSome then st.filter (fun e => !(e.1 == index_name))
    else st
  st1 ++ [(index_name, ⟨number_of_shards, number_of_replicas, []⟩)]

theorem find?_append_right (p : β → Bool) (l : List β) (x : β)
    (h : ∀ e ∈ l, p e = false) :
    (l ++ [x]).find? p = if p x then some x else none := by
  induction l with
  | nil =>
    simp only [List.nil_append, List.find?]
    cases hpx : p x <;> simp
  | cons e l ih =>
    simp only [List.cons_append, List.find?, h e (List.mem_cons_self e l)]
    exact ih fun e' he' => h e' (List.mem_cons_of_mem e he')

theorem find?_append_notlast (p : β → Bool) (l : List β) (x : β) (h : p x = false) :
    (l ++ [x]).find? p = l.find? p := by
  induction l with
  | nil => simp [List.find?, h]
  | cons e l ih =>
    cases hpe : p e <;> simp [List.find?, hpe, ih]

theorem find?_filter_of_imp (p q : β → Bool) (l : List β)
    (h : ∀ e, p e = true → q e = true) :
    (l.filter q).find? p = l.find? p := by
  induction l with
  | nil => rfl
  | cons e l ih =>
    cases hpe : p e
    · cases hqe : q e <;> simp [List.filter, List.find?, hpe, hqe, ih]
    · have hqe : q e = true := h e hpe
      simp [List.filter, List.find?, hpe, hqe]

theorem create_index_lookup (st : EsState α) (name : String) (s r : Nat) :
    esLookup (create_index st name s r) name = some ⟨s, r, []⟩ := by
  simp only [create_index]
  by_cases he : (esLookup st name).isSome = true
  · rw [if_pos he]
    unfold esLookup
    rw [find?_append_right (fun e : String × EsIndexState α => e.1 == name)]
    · simp
    · intro e hme
      have hq := List.of_mem_filter hme
      simpa using hq
  · rw [if_neg he]
    have hnone : (st.find? fun e => e.1 == name) = none := by
      cases hf : st.find? fun e => e.1 == name
      · rfl
      · exact absurd (by simp [esLookup, hf]) he
    unfold esLookup
    rw [find?_append_right (fun e : String × EsIndexState α => e.1 == name)]
    · simp
    · intro e hme
      have hp := List.find?_eq_none.mp hnone e hme
      simpa using hp

theorem create_index_lookup_other (st : EsState α) (name : String) (s r : Nat)
    (n : String) (hne : n ≠ name) :
    esLookup (create_index st name s r) n = esLookup st n := by
  simp only [create_index]
  have hx : (((name, (⟨s, r, []⟩ : EsIndexState α))).1 == n) = false := by
    simp
    exact fun h => hne h.symm
  by_cases he : (esLookup st name).isSome = true
  · rw [if_pos he]
    unfold esLookup
    rw [find?_append_notlast (fun e : String × EsIndexState α => e.1 == n) _ _ hx,
      find?_filter_of_imp (fun e : String × EsIndexState α => e.1 == n)
        (fun e => !(e.1 == name))]
    intro e hpe
    have he1 : e.1 = n := by simpa using hpe
    simp only [he1, Bool.not_eq_true']
    simpa using hne
  · rw [if_neg he]
    unfold esLookup
    rw [find?_append_notlast (fun e : String × EsIndexState α => e.1 == n) _ _ hx]

theorem uploadStep_ops (env : UploadEnv α) (index : String) (cap : Nat)
    (st : LoopState α) (d : String × α) :
    ∃ l, (uploadStep env index cap st d).ops = st.ops ++ l := by
  unfold uploadStep
  by_cases hs : env.dsize d.2 > cap
  · exact ⟨[], by simp [hs]⟩
  · by_cases hfit : st.batch_size + env.dsize d.2 ≤ cap
    · exact ⟨[], by simp [hs, hfit]⟩
    · exact ⟨[EsOp.bulkWrite index st.batch], by simp [hs, hfit]⟩

theorem uploadLoop_ops (env : UploadEnv α) (index : String) (cap : Nat) :
    ∀ (docs : List (String × α)) (st : LoopState α),
      ∃ l, (docs.foldl (uploadStep env index cap) st).ops = st.ops ++ l
  | [], st => ⟨[], by simp⟩
  | d :: docs, st => by
    obtain ⟨l1, h1⟩ := uploadStep_ops env index cap st d
    obtain ⟨l2, h2⟩ := uploadLoop_ops env index cap docs (uploadStep env index cap st d)
    exact ⟨l1 ++ l2, by rw [List.foldl_cons, h2, h1, List.append_assoc]⟩

theorem finishUpload_ops (env : UploadEnv α) (index : String) (st : LoopState α) :
    ∃ l, (finishUpload env index st).ops = st.ops ++ l := by
  unfold finishUpload
  by_cases hb : st.batch.isEmpty = true
  · exact ⟨[], by simp [hb]⟩
  · exact ⟨[EsOp.bulkWrite index st.batch], by simp [hb]⟩

theorem batch_upload_recreate_head (env : UploadEnv α) (docs : List (String × α))
    (index : String) (mb : Nat) :
    (batch_upload env docs index true mb).ops.head? =
      some (EsOp.createIndex index 1 1) := by
  obtain ⟨l1, h1⟩ := uploadLoop_ops env index (mb * 1024 * 1024) docs
    ⟨[EsOp.createIndex index 1 1], [], 0, 0, 0, []⟩
  obtain ⟨l2, h2⟩ := finishUpload_ops env index
    (docs.foldl (uploadStep env index (mb * 1024 * 1024))
      ⟨[EsOp.createIndex index 1 1], [], 0, 0, 0, []⟩)
  show (finishUpload env index
    (docs.foldl (uploadStep env index (mb * 1024 * 1024))
      ⟨[EsOp.createIndex index 1 1], [], 0, 0, 0, []⟩)).ops.head? = _
  rw [h2, h1]
  simp

/-- C10: `create_index` is destructive on name collision: afterwards the
name maps to a fresh index with the requested shard/replica settings and
no documents (whatever was stored under that name is gone), every other
index is untouched; and `batch_upload` with `recreate_index = True`
issues this `create_index` call (with default settings 1/1) before any
bulk write. -/
theorem claim_C10_create_index_destructive (st : EsState α) (name : String)
    (s r : Nat) (env : UploadEnv α) (docs : List (String × α)) (index : String)
    (mb : Nat) :
    esLookup (create_index st name s r) name = some ⟨s, r, []⟩ ∧
    (∀ n, n ≠ name → esLookup (create_index st name s r) n = esLookup st n) ∧
    (batch_upload env docs index true mb).ops.head? =
      some (EsOp.createIndex index 1 1) :=
  ⟨create_index_lookup st name s r,
   fun n hn => create_index_lookup_other st name s r n hn,
   batch_upload_recreate_head env docs index mb⟩

theorem claim_C10_witness :
    esLookup (create_index [("old", (⟨2, 3, [("d0", 5)]⟩ : EsIndexState Nat))] "old" 1 1)
        "old" = some ⟨1, 1, []⟩ ∧
    esLookup (create_index [("old", (⟨2, 3, [("d0", 5)]⟩ : EsIndexState Nat))] "old" 1 1)
        "other" = esLookup [("old", (⟨2, 3, [("d0", 5)]⟩ : EsIndexState Nat))] "other" ∧
    (batch_upload envW [("a", 1)] "i" true 10).ops.head? =
      some (EsOp.createIndex "i" 1 1) :=
  ⟨(claim_C10_create_index_destructive [("old", ⟨2, 3, [("d0", 5)]⟩)] "old" 1 1 envW
      [("a", 1)] "i" 10).1,
   (claim_C10_create_index_destructive [("old", ⟨2, 3, [("d0", 5)]⟩)] "old" 1 1 envW
      [("a", 1)] "i" 10).2.1 "other" (by decide),
   (claim_C10_create_index_destructive ([] : EsState Nat) "old" 1 1 envW
      [("a", 1)] "i" 10).2.2⟩

/-! ## retry_on_lock_error (sql_helper.py)

`retry_on_lock_error(retries=3, delay=2)` wraps a function in
`for attempt in range(retries)`: on success the value is returned; on a
`mysql.connector.Error` whose `errno` is `ER_LOCK_WAIT_TIMEOUT` or
`ER_LOCK_DEADLOCK` it sleeps `delay` seconds and retries while
`attempt < retries - 1`, else raises `DatabaseError("Lock error after
retries: ...")`; any other `mysql.connector.Error` raises
`DatabaseError("MySQL error: ...")` immediately; any other exception
raises `DatabaseError("Database error: ...")` immediately; if the loop
completes (only possible for `retries = 0`) the wrapper returns `None`.

The wrapped operation is modelled as a function from the attempt number
(0-based) to its outcome on that attempt. -/

/-- Outcome of one invocation of the wrapped function: a value, a
`mysql.connector.Error` carrying its `errno`, or any other exception. -/
inductive PyOutcome (γ : Type) where
  | ok : γ → PyOutcome γ
  | mysqlError : Nat → PyOutcome γ
  | otherError : PyOutcome γ
deriving DecidableEq, Repr

/-- `mysql.connector.errorcode.ER_LOCK_WAIT_TIMEOUT`. -/
def ER_LOCK_WAIT_TIMEOUT : Nat := 1205

/-- `mysql.connector.errorcode.ER_LOCK_DEADLOCK`. -/
def ER_LOCK_DEADLOCK : Nat := 1213

/-- `error.errno in {errorcode.ER_LOCK_WAIT_TIMEOUT, errorcode.ER_LOCK_DEADLOCK}`. -/
def isLockErrno (e : Nat) : Bool :=
  e = ER_LOCK_WAIT_TIMEOUT || e = ER_LOCK_DEADLOCK

/-- An outcome the wrapper treats as transient (retryable). -/
def isTransientOutcome : PyOutcome γ → Bool
  | PyOutcome.mysqlError e => isLockErrno e
  | _ => false

/-- An outcome that is a failure the wrapper treats as permanent. -/
def isPermanentOutcome : PyOutcome γ → Bool
  | PyOutcome.ok _ => false
  | PyOutcome.mysqlError e => !isLockErrno e
  | PyOutcome.otherError => true

/-- What the wrapper terminates with. -/
inductive RetryResult (γ : Type) where
  | value : γ → RetryResult γ
  | lockErrorAfterRetries : RetryResult γ
  | mysqlDatabaseError : RetryResult γ
  | generalDatabaseError : RetryResult γ
  | loopFellThrough : RetryResult γ
deriving Repr

/-- `RetryResult` values raised as `DatabaseError`. -/
def isDatabaseError : RetryResult γ → Bool
  | RetryResult.lockErrorAfterRetries => true
  | RetryResult.mysqlDatabaseError => true
  | RetryResult.generalDatabaseError => true
  | _ => false

/-- The observable run of one wrapped call: its result, how many times the
wrapped function ran, how many `time.sleep(delay)` calls happened, and
the total seconds slept. -/
structure RetryTrace (γ : Type) where
  result : RetryResult γ
  calls : Nat
  sleeps : Nat
  slept : Nat
deriving Repr

/-- The `for attempt in range(retries)` loop; `fuel` is the number of loop
iterations still available (so `attempt < retries - 1` is `0 < fuel - 1`,
i.e. `1 ≤ fuel - 1`, at an iteration entered with `fuel` left). -/
def retryGo (op : Nat → PyOutcome γ) (delay : Nat) :
    Nat → Nat → Nat → Nat → Nat → RetryTrace γ
  | 0, _, calls, sleeps, slept => ⟨RetryResult.loopFellThrough, calls, sleeps, slept⟩
  | fuel + 1, attempt, calls, sleeps, slept =>
    match op attempt with
    | PyOutcome.ok a => ⟨RetryResult.value a, calls + 1, sleeps, slept⟩
    | PyOutcome.mysqlError e =>
      if isLockErrno e then
        if 0 < fuel then
          retryGo op delay fuel (attempt + 1) (calls + 1) (sleeps + 1) (slept + delay)
        else ⟨RetryResult.lockErrorAfterRetries, calls + 1, sleeps, slept⟩
      else ⟨RetryResult.mysqlDatabaseError, calls + 1, sleeps, slept⟩
    | PyOutcome.otherError => ⟨RetryResult.generalDatabaseError, calls + 1, sleeps, slept⟩

/-- `retry_on_lock_error(retries, delay)` applied to an operation. -/
def retry_on_lock_error (retries delay : Nat) (op : Nat → PyOutcome γ) : RetryTrace γ :=
  retryGo op delay retries 0 0 0 0

example :
    retry_on_lock_error 3 2
      (fun n => if n < 2 then PyOutcome.mysqlError 1205 else PyOutcome.ok 7) =
    ⟨RetryResult.value 7, 3, 2, 4⟩ := rfl

example :
    retry_on_lock_error 3 2 (fun _ => (PyOutcome.otherError : PyOutcome Nat)) =
    ⟨RetryResult.generalDatabaseError, 1, 0, 0⟩ := rfl

example :
    retry_on_lock_error 3 2 (fun _ => (PyOutcome.mysqlError 1213 : PyOutcome Nat)) =
    ⟨RetryResult.lockErrorAfterRetries, 3, 2, 4⟩ := rfl

/-- Total sleep of a run is bounded by the remaining iterations minus one,
times the delay: the final iteration never sleeps. -/
theorem retryGo_slept_le (op : Nat → PyOutcome γ) (delay : Nat) :
    ∀ (fuel attempt calls sleeps slept : Nat),
      (retryGo op delay fuel attempt calls sleeps slept).slept ≤
        slept + (fuel - 1) * delay
  | 0, _, _, _, _ => by simp [retryGo]
  | fuel + 1, attempt, calls, sleeps, slept => by
    cases hop : op attempt with
    | ok a => simp [retryGo, hop]
    | otherError => simp [retryGo, hop]
    | mysqlError e =>
      by_cases hl : isLockErrno e = true
      · cases fuel with
        | zero => simp [retryGo, hop, hl]
        | succ f =>
          have ih := retryGo_slept_le op delay (f + 1) (attempt + 1) (calls + 1)
            (sleeps + 1) (slept + delay)
          simp only [retryGo, hop, hl, if_true, Nat.succ_sub_one, Nat.succ_pos,
            if_pos]
          calc (retryGo op delay (f + 1) (attempt + 1) (calls + 1) (sleeps + 1)
                  (slept + delay)).slept
              ≤ slept + delay + (f + 1 - 1) * delay := ih
            _ = slept + (f + 1) * delay := by
                simp only [Nat.add_sub_cancel]
                ring
      · simp [retryGo, hop, hl]

/-- C5: with the default policy `retries = 3`, `delay = 2`, an operation
that fails transiently (lock-wait-timeout or deadlock) on attempts 1 and
2 and succeeds on attempt 3 makes the wrapper sleep exactly twice, 2
seconds each (4 seconds total blocking), run the operation exactly 3
times, and return the successful value with no `DatabaseError`; and for
every policy the total blocking delay is at most `(retries - 1) * delay`. -/
theorem claim_C5_retry_transient_then_success (op : Nat → PyOutcome γ) (a : γ)
    (h0 : isTransientOutcome (op 0) = true)
    (h1 : isTransientOutcome (op 1) = true)
    (h2 : op 2 = PyOutcome.ok a) :
    (retry_on_lock_error 3 2 op).result = RetryResult.value a ∧
    (retry_on_lock_error 3 2 op).sleeps = 2 ∧
    (retry_on_lock_error 3 2 op).slept = 4 ∧
    (retry_on_lock_error 3 2 op).calls = 3 ∧
    isDatabaseError (retry_on_lock_error 3 2 op).result = false ∧
    (∀ (retries delay : Nat) (op2 : Nat → PyOutcome γ),
      (retry_on_lock_error retries delay op2).slept ≤ (retries - 1) * delay) := by
  have he0 : ∃ e, op 0 = PyOutcome.mysqlError e ∧ isLockErrno e = true := by
    cases hop : op 0 with
    | ok b => rw [hop] at h0; simp [isTransientOutcome] at h0
    | mysqlError e =>
      rw [hop] at h0
      exact ⟨e, rfl, by simpa [isTransientOutcome] using h0⟩
    | otherError => rw [hop] at h0; simp [isTransientOutcome] at h0
  have he1 : ∃ e, op 1 = PyOutcome.mysqlError e ∧ isLockErrno e = true := by
    cases hop : op 1 with
    | ok b => rw [hop] at h1; simp [isTransientOutcome] at h1
    | mysqlError e =>
      rw [hop] at h1
      exact ⟨e, rfl, by simpa [isTransientOutcome] using h1⟩
    | otherError => rw [hop] at h1; simp [isTransientOutcome] at h1
  obtain ⟨e0, hop0, hl0⟩ := he0
  obtain ⟨e1, hop1, hl1⟩ := he1
  have hrun : retry_on_lock_error 3 2 op = ⟨RetryResult.value a, 3, 2, 4⟩ := by
    simp [retry_on_lock_error, retryGo, hop0, hl0, hop1, hl1, h2]
  rw [hrun]
  refine ⟨rfl, rfl, rfl, rfl, rfl, ?_⟩
  intro retries delay op2
  have hb := retryGo_slept_le op2 delay retries 0 0 0 0
  simpa [retry_on_lock_error] using hb

theorem claim_C5_witness :
    ((retry_on_lock_error 3 2
        (fun n => if n < 2 then PyOutcome.mysqlError 1205 else PyOutcome.ok 7)).result =
      RetryResult.value 7 ∧
    (retry_on_lock_error 3 2
        (fun n => if n < 2 then PyOutcome.mysqlError 1205 else PyOutcome.ok 7)).sleeps = 2 ∧
    (retry_on_lock_error 3 2
        (fun n => if n < 2 then PyOutcome.mysqlError 1205 else PyOutcome.ok 7)).slept = 4 ∧
    (retry_on_lock_error 3 2
        (fun n => if n < 2 then PyOutcome.mysqlError 1205 else PyOutcome.ok 7)).calls = 3 ∧
    isDatabaseError
      (retry_on_lock_error 3 2
        (fun n => if n < 2 then PyOutcome.mysqlError 1205 else PyOutcome.ok 7)).result
        = false ∧
    (∀ (retries delay : Nat) (op2 : Nat → PyOutcome Nat),
      (retry_on_lock_error retries delay op2).slept ≤ (retries - 1) * delay)) :=
  claim_C5_retry_transient_then_success
    (fun n => if n < 2 then PyOutcome.mysqlError 1205 else PyOutcome.ok 7) 7
    (by decide) (by decide) (by decide)

/-- Whenever the wrapper runs the operation again after attempt
`attempt + m` (0-based), that attempt's outcome was a lock error: only
lock-wait-timeout and deadlock are ever retried. -/
theorem retryGo_retried_transient (op : Nat → PyOutcome γ) (delay : Nat) :
    ∀ (fuel attempt calls sleeps slept m : Nat),
      calls + m + 1 < (retryGo op delay fuel attempt calls sleeps slept).calls →
      isTransientOutcome (op (attempt + m)) = true
  | 0, attempt, calls, sleeps, slept, m => by
    intro h
    exfalso
    simp [retryGo] at h
    omega
  | fuel + 1, attempt, calls, sleeps, slept, m => by
    intro h
    cases hop : op attempt with
    | ok a =>
      exfalso
      simp [retryGo, hop] at h
    | otherError =>
      exfalso
      simp [retryGo, hop] at h
    | mysqlError e =>
      by_cases hl : isLockErrno e = true
      · by_cases hf : 0 < fuel
        · simp only [retryGo, hop, hl, if_true, hf, if_pos] at h
          cases m with
          | zero =>
            rw [Nat.add_zero, hop]
            simpa [isTransientOutcome] using hl
          | succ m' =>
            have h' : (calls + 1) + m' + 1 <
                (retryGo op delay fuel (attempt + 1) (calls + 1) (sleeps + 1)
                  (slept + delay)).calls := by
              omega
            have hres := retryGo_retried_transient op delay fuel (attempt + 1)
              (calls + 1) (sleeps + 1) (slept + delay) m' h'
            have harr : attempt + (m' + 1) = attempt + 1 + m' := by omega
            rw [harr]
            exact hres
        · exfalso
          simp [retryGo, hop, hl, hf] at h
      · exfalso
        simp [retryGo, hop, hl] at h

/-- C6: an error the classifier deems permanent — any failure other than
the two lock conditions `ER_LOCK_WAIT_TIMEOUT` and `ER_LOCK_DEADLOCK` —
makes the wrapper raise `DatabaseError` from the failing first attempt
with zero sleeps, running the operation exactly once no matter how many
attempts remain (and not via the retries-exhausted path); and in any run
whatsoever, an attempt that gets retried had a lock error, so only
lock-wait-timeout and deadlock are ever retried. -/
theorem claim_C6_permanent_immediate (op : Nat → PyOutcome γ) (retries delay : Nat)
    (hr : 1 ≤ retries) (hp : isPermanentOutcome (op 0) = true) :
    (retry_on_lock_error retries delay op).calls = 1 ∧
    (retry_on_lock_error retries delay op).sleeps = 0 ∧
    (retry_on_lock_error retries delay op).slept = 0 ∧
    isDatabaseError (retry_on_lock_error retries delay op).result = true ∧
    (retry_on_lock_error retries delay op).result ≠ RetryResult.lockErrorAfterRetries ∧
    (∀ (op2 : Nat → PyOutcome γ) (r d i : Nat),
      i + 1 < (retry_on_lock_error r d op2).calls →
      isTransientOutcome (op2 i) = true) := by
  have htr : ∀ (op2 : Nat → PyOutcome γ) (r d i : Nat),
      i + 1 < (retry_on_lock_error r d op2).calls →
      isTransientOutcome (op2 i) = true := by
    intro op2 r d i h
    have hres := retryGo_retried_transient op2 d r 0 0 0 0 i
      (by simpa [retry_on_lock_error] using h)
    simpa using hres
  obtain ⟨r', rfl⟩ : ∃ r', retries = r' + 1 := ⟨retries - 1, by omega⟩
  have hstep :
      retry_on_lock_error (r' + 1) delay op = ⟨RetryResult.mysqlDatabaseError, 1, 0, 0⟩ ∨
      retry_on_lock_error (r' + 1) delay op = ⟨RetryResult.generalDatabaseError, 1, 0, 0⟩ := by
    cases hop : op 0 with
    | ok a =>
      exfalso
      rw [hop] at hp
      simp [isPermanentOutcome] at hp
    | mysqlError e =>
      left
      have hl : isLockErrno e = false := by
        rw [hop] at hp
        simpa [isPermanentOutcome] using hp
      simp [retry_on_lock_error, retryGo, hop, hl]
    | otherError =>
      right
      simp [retry_on_lock_error, retryGo, hop]
  rcases hstep with hs | hs <;> rw [hs] <;>
    exact ⟨rfl, rfl, rfl, rfl, by simp, htr⟩

theorem claim_C6_witness :
    ((retry_on_lock_error 3 2 (fun _ => (PyOutcome.otherError : PyOutcome Nat))).calls = 1 ∧
    (retry_on_lock_error 3 2 (fun _ => (PyOutcome.otherError : PyOutcome Nat))).sleeps = 0 ∧
    (retry_on_lock_error 3 2 (fun _ => (PyOutcome.otherError : PyOutcome Nat))).slept = 0 ∧
    isDatabaseError
      (retry_on_lock_error 3 2 (fun _ => (PyOutcome.otherError : PyOutcome Nat))).result
      = true ∧
    (retry_on_lock_error 3 2 (fun _ => (PyOutcome.otherError : PyOutcome Nat))).result ≠
      RetryResult.lockErrorAfterRetries ∧
    (∀ (op2 : Nat → PyOutcome Nat) (r d i : Nat),
      i + 1 < (retry_on_lock_error r d op2).calls →
      isTransientOutcome (op2 i) = true)) :=
  claim_C6_permanent_immediate (fun _ => PyOutcome.otherError) 3 2
    (by decide) (by decide)

/-! ## OpensearchHandler construction (singleton)

`OpensearchHandler.__new__` stores the first-created object in the class
attribute `_instance` (double-checked under `_lock`) and returns it for
every construction; the fresh object gets `_initialized = False`.
`__init__(host, index, role_arn, region, timeout, pool_maxsize,
pool_connections)` returns immediately when `self._initialized` is true,
otherwise it stores the connection fields, builds the `OpenSearch` client
from them (host, port 443, pool and timeout settings) and sets
`_initialized = True`. A construction call is `__new__` followed by
`__init__` on the returned object. -/

/-- The arguments of `OpensearchHandler.__init__`. -/
structure OSArgs where
  host : String
  index : String
  role_arn : String
  region : String
  timeout : Nat
  pool_maxsize : Nat
  pool_connections : Nat
deriving DecidableEq, Repr

/-- The `OpenSearch` client built in `__init__` (the connection-relevant
settings it is constructed with). -/
structure OSClient where
  host : String
  port : Nat
  pool_maxsize : Nat
  pool_connections : Nat
  timeout : Nat
deriving DecidableEq, Repr

/-- One `OpensearchHandler` object: its `_initialized` flag and the
attributes `__init__` sets. -/
structure OSInstance where
  inited : Bool
  host : String
  index : String
  role_arn : String
  region : String
  es : OSClient
deriving DecidableEq, Repr

/-- The object `__new__` creates before `__init__` ran: `_initialized` is
`False` and no other attribute has been set yet (placeholder values —
`__init__` never reads them while `inited` is false). -/
def blankInstance : OSInstance :=
  ⟨false, "", "", "", "", ⟨"", 0, 0, 0, 0⟩⟩

/-- `OpensearchHandler.__init__`: an early return when `_initialized`,
otherwise store the fields, build the client, set `_initialized`. -/
def osInit (self : OSInstance) (a : OSArgs) : OSInstance :=
  if self.inited then self
  else
    ⟨true, a.host, a.index, a.role_arn, a.region,
      ⟨a.host, 443, a.pool_maxsize, a.pool_connections, a.timeout⟩⟩

/-- One construction call `OpensearchHandler(...)`: `__new__` returns the
existing `_instance` or a fresh blank one, `__init__` runs on it, and the
(mutated) object is what both `_instance` and the caller end up with. -/
def osConstruct (instVar : Option OSInstance) (a : OSArgs) :
    Option OSInstance × OSInstance :=
  let self := match instVar with
    | Option.none => blankInstance
    | Option.some i => i
  let self2 := osInit self a
  (Option.some self2, self2)

/-- A sequence of construction calls: the per-call returned objects and
the final `_instance` class attribute. -/
def osConstructAll : Option OSInstance → List OSArgs → List OSInstance × Option OSInstance
  | instVar, [] => ([], instVar)
  | instVar, a :: rest =>
    let r := osConstruct instVar a
    let t := osConstructAll r.1 rest
    (r.2 :: t.1, t.2)

/-- After a first construction, the instance is initialized and carries
the first call's arguments. -/
theorem osConstruct_first (a : OSArgs) :
    (osConstruct Option.none a).2 =
      ⟨true, a.host, a.index, a.role_arn, a.region,
        ⟨a.host, 443, a.pool_maxsize, a.pool_connections, a.timeout⟩⟩ := by
  simp [osConstruct, osInit, blankInstance]

/-- Construction on an already-initialized stored instance returns that
very instance and leaves the class attribute unchanged. -/
theorem osConstruct_later (i : OSInstance) (hi : i.inited = true) (a : OSArgs) :
    osConstruct (Option.some i) a = (Option.some i, i) := by
  simp [osConstruct, osInit, hi]

theorem osConstructAll_const (i : OSInstance) (hi : i.inited = true) :
    ∀ rest : List OSArgs,
      osConstructAll (Option.some i) rest = (rest.map fun _ => i, Option.some i)
  | [] => by simp [osConstructAll]
  | a :: rest => by
    simp only [osConstructAll, osConstruct_later i hi a,
      osConstructAll_const i hi rest, List.map_cons]

/-- C9: `OpensearchHandler` is a process-wide singleton. The first
construction initializes the stored instance from its own arguments;
every later construction call — whatever arguments `a2` it passes —
returns that very same object unchanged and leaves the stored instance
unchanged, so the later call's host, index, role ARN, region, timeout and
pool settings are all silently discarded. -/
theorem claim_C9_singleton (a1 : OSArgs) (rest : List OSArgs) :
    (osConstruct Option.none a1).2.inited = true ∧
    (osConstruct Option.none a1).2.host = a1.host ∧
    (osConstruct Option.none a1).2.index = a1.index ∧
    (osConstruct Option.none a1).2.role_arn = a1.role_arn ∧
    (osConstruct Option.none a1).2.region = a1.region ∧
    (osConstruct Option.none a1).2.es =
      ⟨a1.host, 443, a1.pool_maxsize, a1.pool_connections, a1.timeout⟩ ∧
    (osConstruct Option.none a1).1 = Option.some (osConstruct Option.none a1).2 ∧
    (osConstructAll (osConstruct Option.none a1).1 rest).1 =
      rest.map (fun _ => (osConstruct Option.none a1).2) ∧
    (osConstructAll (osConstruct Option.none a1).1 rest).2 =
      (osConstruct Option.none a1).1 := by
  have hfst := osConstruct_first a1
  have hin : (osConstruct Option.none a1).2.inited = true := by rw [hfst]
  have hone : (osConstruct Option.none a1).1 =
      Option.some (osConstruct Option.none a1).2 := rfl
  have hall := osConstructAll_const (osConstruct Option.none a1).2 hin rest
  refine ⟨hin, ?_, ?_, ?_, ?_, ?_, hone, ?_, ?_⟩
  · rw [hfst]
  · rw [hfst]
  · rw [hfst]
  · rw [hfst]
  · rw [hfst]
  · rw [hone, hall]
  · rw [hone, hall]

end MultiDataManager
